import Mathlib

/-!
# Shallow embedding of the fccu-cpp Fault Collection and Control Unit

This file embeds the core of the `fccu-cpp` repository in Lean 4 and proves
properties of the embedded code:

* `src/include/fccu/fault_queue_set.hpp` — `FaultQueueSet` (multi-level
  priority queue set with admission control),
* `src/include/fccu/fccu_hsm.hpp` — the Global and Per-Fault hierarchical
  state machines (their transition tables are in the source; the generic
  dispatch engine of the external `hsm-cpp` library is flattened into a
  transition function, which is exact here because none of the states
  registered in the source have parents, entry or exit actions),
* `src/include/fccu/fccu.hpp` — `FaultCollector` (registration, reporting,
  processing, clearing, statistics).

Machine integers: all the quantities involved (indices, counters, queue
sizes) are far below their C++ types' bounds on every path modelled here
(counters only ever increment by 1 from 0 and are 32/64-bit in the source),
so they are embedded as `Nat`.

The SPSC ring buffer (`spsc/ringbuffer.hpp`) is an external dependency that
is not part of this repository; it is modelled from the spec (Section 4.1):
a FIFO ring of fixed capacity exposing push / pop / size / is_empty.

Hooks and callbacks are C function pointers with an opaque context; they are
modelled as pure Lean functions (hooks: `FaultEvent → HookAction`), and the
invocation of the other callbacks is recorded in an explicit effect trace.
The wall-clock source (`detail::SteadyNowUs`) is modelled by a logical clock
field that produces a fresh value at each capture.
-/

namespace Fccu

/-- `fccu::FaultPriority` (fccu.hpp line 57): Critical=0, High=1, Medium=2, Low=3. -/
inductive FaultPriority where
  | kCritical
  | kHigh
  | kMedium
  | kLow
deriving DecidableEq, Repr

/-- The numeric value of a priority, as in `static_cast<uint8_t>(priority)`. -/
def FaultPriority.toNat : FaultPriority → Nat
  | .kCritical => 0
  | .kHigh => 1
  | .kMedium => 2
  | .kLow => 3

/-- `static_cast<FaultPriority>(n)` for `n` in 0..3 (the only values cast in the source). -/
def FaultPriority.ofVal : Nat → FaultPriority
  | 0 => .kCritical
  | 1 => .kHigh
  | 2 => .kMedium
  | _ => .kLow

/-- `fccu::HookAction` (fccu.hpp line 59). -/
inductive HookAction where
  | kHandled
  | kEscalate
  | kDefer
  | kShutdown
deriving DecidableEq, Repr

/-- `fccu::FccuError` (fccu.hpp lines 61-69). -/
inductive FccuError where
  | kOk
  | kQueueFull
  | kInvalidIndex
  | kAlreadyRegistered
  | kNotRegistered
  | kAdmissionDenied
  | kHsmSlotFull
deriving DecidableEq, Repr

/-- `fccu::FaultEntry` (fccu.hpp lines 77-83); the `reserved` padding byte,
which is never read or written, is omitted. -/
structure FaultEntry where
  fault_index : Nat
  priority : FaultPriority
  detail : Nat
  timestamp_us : Nat
deriving DecidableEq, Repr

/-- `fccu::FaultEvent` (fccu.hpp lines 85-93). -/
structure FaultEvent where
  fault_index : Nat
  priority : FaultPriority
  fault_code : Nat
  detail : Nat
  timestamp_us : Nat
  occurrence_count : Nat
  is_first : Bool
deriving DecidableEq, Repr

/-- `fccu::RecentFaultInfo` (fccu.hpp lines 103-108). -/
structure RecentFaultInfo where
  fault_index : Nat
  detail : Nat
  priority : FaultPriority
  timestamp_us : Nat
deriving DecidableEq, Repr

/-! ## SPSC ring buffer (external `spsc/ringbuffer.hpp`)

Modelled from the spec: the ring buffer component is not part of this
repository's sources.  Spec Section 4.1: each ring is a single-producer
single-consumer FIFO of capacity `QueueDepth`, exposing `push` (fails iff
full), `pop` (first-in first-out), `size`, `is_empty`.  A ring is a list
whose head is the oldest element. -/

/-- Modelled from the spec: `spsc::Ringbuffer<T, N>::Push` — append at the
back if the ring holds fewer than `cap` items, otherwise fail. -/
def ringPush (cap : Nat) (q : List α) (x : α) : Option (List α) :=
  if q.length < cap then some (q ++ [x]) else none

/-- Modelled from the spec: `spsc::Ringbuffer<T, N>::Pop` — remove the
oldest element (list head), failing on an empty ring. -/
def ringPop (q : List α) : Option (α × List α) :=
  match q with
  | [] => none
  | x :: xs => some (x, xs)

/-! ## `fccu::FaultQueueSet` (fault_queue_set.hpp)

The queue set holds `Levels` rings of capacity `LevelSize`; it is embedded
as a list of rings (index = priority level, 0 = highest).  The template
parameters `Levels` and `LevelSize` become the `levels` and `cap`
arguments. -/

/-- `FaultQueueSet::kLowThreshold` (fault_queue_set.hpp line 49). -/
def kLowThreshold (cap : Nat) : Nat := cap * 60 / 100

/-- `FaultQueueSet::kMediumThreshold` (fault_queue_set.hpp line 50). -/
def kMediumThreshold (cap : Nat) : Nat := cap * 80 / 100

/-- `FaultQueueSet::kHighThreshold` (fault_queue_set.hpp line 51). -/
def kHighThreshold (cap : Nat) : Nat := cap * 99 / 100

/-- `FaultQueueSet::AdmitByPriority` (fault_queue_set.hpp lines 170-183). -/
def admitByPriority (cap level current_depth : Nat) : Bool :=
  if level = 0 then true
  else if level = 1 then current_depth < kHighThreshold cap
  else if level = 2 then current_depth < kMediumThreshold cap
  else current_depth < kLowThreshold cap

/-- `FaultQueueSet::Push` (fault_queue_set.hpp lines 59-64): unconditional
push into the chosen level; fails iff the level is out of range or that
level's ring is full.  Returns the updated queue list on success. -/
def qsPush (levels cap : Nat) (qs : List (List FaultEntry)) (level : Nat)
    (item : FaultEntry) : Option (List (List FaultEntry)) :=
  if level ≥ levels then none
  else
    match ringPush cap (qs.getD level []) item with
    | none => none
    | some q => some (qs.set level q)

/-- `FaultQueueSet::PushWithAdmission` (fault_queue_set.hpp lines 79-87):
check the admission policy against the target level's current size, then
push. -/
def qsPushWithAdmission (levels cap : Nat) (qs : List (List FaultEntry))
    (level : Nat) (item : FaultEntry) : Option (List (List FaultEntry)) :=
  if level ≥ levels then none
  else if ¬ admitByPriority cap level (qs.getD level []).length then none
  else qsPush levels cap qs level item

/-- `FaultQueueSet::Pop` (fault_queue_set.hpp lines 99-107): scan the rings
from level 0 upward and pop the first available item, returning it, the
level it came from, and the updated queue list. -/
def popScan : List (List FaultEntry) → Option (FaultEntry × Nat × List (List FaultEntry))
  | [] => none
  | q :: rest =>
    match q with
    | x :: xs => some (x, 0, xs :: rest)
    | [] =>
      match popScan rest with
      | some (x, lvl, rest') => some (x, lvl + 1, [] :: rest')
      | none => none

/-- `FaultQueueSet::TotalSize` (fault_queue_set.hpp lines 134-140). -/
def qsTotalSize (qs : List (List FaultEntry)) : Nat :=
  (qs.map List.length).sum

/-- The effective admission bound of `PushWithAdmission` for a given level:
physical capacity at level 0, the admission thresholds above.  This is the
statement-side rephrasing of the spec's admission table (spec Section 4.1),
to be compared with the source's `AdmitByPriority` + `Push` composition. -/
def specAdmissionBound (cap level : Nat) : Nat :=
  if level = 0 then cap
  else if level = 1 then cap * 99 / 100
  else if level = 2 then cap * 80 / 100
  else cap * 60 / 100

/-! ## Event identifiers (fccu_hsm.hpp, namespace `evt`) -/

def evtFaultReported : Nat := 1
def evtAllCleared : Nat := 2
def evtCriticalDetected : Nat := 3
def evtShutdownReq : Nat := 4
def evtDegradeRecovered : Nat := 5
def evtDetected : Nat := 10
def evtConfirmed : Nat := 11
def evtRecoveryStart : Nat := 12
def evtRecoveryDone : Nat := 13
def evtClearFault : Nat := 14

/-! ## Global FCCU HSM (fccu_hsm.hpp lines 77-133)

The transition table registered in `GlobalHsm::Setup` is flattened into a
dispatch function.  The states are flat (no parents, no entry/exit actions),
so the external `hsm::StateMachine` engine reduces to: find the transition
registered for the current state and event, run its action, move to the
target state; events with no registered transition are ignored. -/

/-- The four states of `GlobalHsm`. -/
inductive GState where
  | Idle
  | Active
  | Degraded
  | Shutdown
deriving DecidableEq, Repr

/-- `fccu::GlobalHsmContext` (fccu_hsm.hpp lines 54-58). -/
structure GlobalHsmContext where
  active_count : Nat := 0
  critical_count : Nat := 0
  shutdown_requested : Bool := false
deriving DecidableEq, Repr

/-- A `GlobalHsm` is its current state plus its context. -/
structure GlobalHsm where
  st : GState := .Idle
  ctx : GlobalHsmContext := {}
deriving DecidableEq, Repr

/-- `GlobalHsm::Dispatch`, flattened from the table in `GlobalHsm::Setup`
(fccu_hsm.hpp lines 102-125). -/
def GlobalHsm.dispatch (g : GlobalHsm) (event_id : Nat) : GlobalHsm :=
  match g.st with
  | .Idle =>
    if event_id = evtFaultReported then { g with st := .Active } else g
  | .Active =>
    if event_id = evtAllCleared then
      { st := .Idle, ctx := { g.ctx with active_count := 0, critical_count := 0 } }
    else if event_id = evtCriticalDetected then { g with st := .Degraded }
    else if event_id = evtShutdownReq then
      { st := .Shutdown, ctx := { g.ctx with shutdown_requested := true } }
    else g
  | .Degraded =>
    if event_id = evtDegradeRecovered then { g with st := .Active }
    else if event_id = evtShutdownReq then
      { st := .Shutdown, ctx := { g.ctx with shutdown_requested := true } }
    else g
  | .Shutdown => g

/-! ## Per-Fault HSM (fccu_hsm.hpp lines 169-246) -/

/-- The five states of `PerFaultHsm`. -/
inductive PState where
  | Dormant
  | Detected
  | Active
  | Recovering
  | Cleared
deriving DecidableEq, Repr

/-- `fccu::PerFaultContext` (fccu_hsm.hpp lines 142-146). -/
structure PerFaultContext where
  fault_index : Nat := 0
  occurrence_count : Nat := 0
  err_threshold : Nat := 1
deriving DecidableEq, Repr

/-- A `PerFaultHsm` is its current state plus its context. -/
structure PerFaultHsm where
  st : PState := .Dormant
  ctx : PerFaultContext := {}
deriving DecidableEq, Repr

/-- `PerFaultHsm::Dispatch`, flattened from the table in
`PerFaultHsm::Setup` (fccu_hsm.hpp lines 203-237).  The `Confirmed`
transition carries the guard `occurrence_count >= err_threshold`; the
`Detected` self-loop in state `Detected` is an internal transition
(action only, no state change). -/
def PerFaultHsm.dispatch (h : PerFaultHsm) (event_id : Nat) : PerFaultHsm :=
  match h.st with
  | .Dormant =>
    if event_id = evtDetected then
      { st := .Detected, ctx := { h.ctx with occurrence_count := 1 } }
    else h
  | .Detected =>
    if event_id = evtConfirmed then
      if h.ctx.occurrence_count ≥ h.ctx.err_threshold then { h with st := .Active } else h
    else if event_id = evtDetected then
      { h with ctx := { h.ctx with occurrence_count := h.ctx.occurrence_count + 1 } }
    else if event_id = evtClearFault then { h with st := .Cleared }
    else h
  | .Active =>
    if event_id = evtRecoveryStart then { h with st := .Recovering }
    else if event_id = evtClearFault then { h with st := .Cleared }
    else h
  | .Recovering =>
    if event_id = evtRecoveryDone then { h with st := .Cleared }
    else h
  | .Cleared =>
    if event_id = evtClearFault then
      { st := .Dormant, ctx := { h.ctx with occurrence_count := 0 } }
    else h

/-- `PerFaultHsm::Bind` (fccu_hsm.hpp lines 189-194): set index and
threshold, zero the occurrence count, reset the machine to its initial
state (Dormant). -/
def PerFaultHsm.bindTo (fault_index threshold : Nat) : PerFaultHsm :=
  { st := .Dormant,
    ctx := { fault_index := fault_index, occurrence_count := 0, err_threshold := threshold } }

/-- `PerFaultHsm::Reset` (fccu_hsm.hpp lines 197-200): zero the occurrence
count and return to Dormant; index and threshold are kept. -/
def PerFaultHsm.reset (h : PerFaultHsm) : PerFaultHsm :=
  { st := .Dormant, ctx := { h.ctx with occurrence_count := 0 } }

/-! ## `fccu::FaultCollector` (fccu.hpp)

The four template parameters become a configuration record.  The fault
table and the active bitmap are embedded as total functions over `Nat`
(the bitmap word/bit split of the source stores exactly the predicate
`fun i => bit i is set`); the per-fault HSM slot array together with its
`per_fault_hsm_map_` becomes a list of `(fault_index, hsm)` pairs in slot
order, whose length is `per_fault_hsm_count_`. -/

/-- The template parameters of `FaultCollector<MaxFaults, QueueDepth,
QueueLevels, MaxPerFaultHsm>` (fccu.hpp line 145). -/
structure Cfg where
  maxFaults : Nat
  queueDepth : Nat
  queueLevels : Nat
  maxPerFaultHsm : Nat
deriving DecidableEq, Repr

/-- `FaultCollector::FaultTableEntry` (fccu.hpp lines 525-533).  The hook
`(fn, ctx)` pair is a pure Lean function. -/
structure FaultTableEntry where
  fault_code : Nat := 0
  attr : Nat := 0
  err_threshold : Nat := 1
  registered : Bool := false
  occurrence_count : Nat := 0
  hook : Option (FaultEvent → HookAction) := none

/-- `fccu::FaultStatistics` counters (fccu.hpp lines 542-546), plus the
ghost field `esc_dropped`: a history variable counting the drops recorded
by `HandleEscalation` on re-enqueue failure (fccu.hpp line 499), which the
source adds to `total_dropped` without touching any per-priority counter.
The ghost field is written exactly where that line executes and is zeroed
by `ResetStatistics`; it affects no behaviour. -/
structure Stats where
  total_reported : Nat := 0
  total_processed : Nat := 0
  total_dropped : Nat := 0
  priority_reported : Nat → Nat := fun _ => 0
  priority_dropped : Nat → Nat := fun _ => 0
  esc_dropped : Nat := 0

/-- The collector state (fccu.hpp lines 535-566).  Callbacks other than
hooks are opaque C function pointers whose only observable property inside
the core is whether they are set; each is a `Bool` flag, and invocations
are recorded in the effect trace.  `clock` models `detail::SteadyNowUs`. -/
structure Collector where
  queues : List (List FaultEntry)
  table : Nat → FaultTableEntry
  active : Nat → Bool
  stats : Stats
  default_hook : Option (FaultEvent → HookAction)
  has_overflow_cb : Bool
  has_shutdown_cb : Bool
  has_bus_cb : Bool
  global_hsm : GlobalHsm
  hsms : List (Nat × PerFaultHsm)
  recent : List RecentFaultInfo
  clock : Nat
  shutdown_requested : Bool

/-- Observable side effects of collector operations: calls out to the bus
notifier, a registered or default hook, the shutdown callback, and the
overflow callback. -/
inductive Effect where
  | busNotify (e : FaultEvent)
  | hookCall (e : FaultEvent) (a : HookAction)
  | shutdownCall
  | overflowCall (fault_index : Nat) (p : FaultPriority)

/-- The default-constructed collector: empty rings, a fault table of
default-constructed entries, all bits clear, zero statistics, no callbacks,
the global HSM in Idle, no per-fault HSM bound, empty recent ring. -/
def initCollector (cfg : Cfg) : Collector :=
  { queues := List.replicate cfg.queueLevels []
    table := fun _ => {}
    active := fun _ => false
    stats := {}
    default_hook := none
    has_overflow_cb := false
    has_shutdown_cb := false
    has_bus_cb := false
    global_hsm := {}
    hsms := []
    recent := []
    clock := 0
    shutdown_requested := false }

/-- The number of bits in the active bitmap:
`kBitmapWords = (MaxFaults + 63) / 64` words of 64 bits (fccu.hpp line 539). -/
def bitmapBits (cfg : Cfg) : Nat := ((cfg.maxFaults + 63) / 64) * 64

/-- `FaultCollector::ActiveFaultCount` (fccu.hpp lines 306-312): population
count over every word of the bitmap (a function of the bitmap alone). -/
def activeFaultCount (cfg : Cfg) (active : Nat → Bool) : Nat :=
  (List.range (bitmapBits cfg)).countP fun i => active i

/-- `FaultCollector::IsFaultActive` (fccu.hpp lines 297-304). -/
def isFaultActive (cfg : Cfg) (c : Collector) (fault_index : Nat) : Bool :=
  if fault_index ≥ cfg.maxFaults then false else c.active fault_index

/-- `FaultCollector::RegisterFault` (fccu.hpp lines 159-173). -/
def registerFault (cfg : Cfg) (c : Collector) (fault_index fault_code attr err_threshold : Nat) :
    FccuError × Collector :=
  if fault_index ≥ cfg.maxFaults then (.kInvalidIndex, c)
  else if (c.table fault_index).registered then (.kAlreadyRegistered, c)
  else
    (.kOk,
     { c with
       table := Function.update c.table fault_index
         { c.table fault_index with
           fault_code := fault_code, attr := attr,
           err_threshold := err_threshold, registered := true } })

/-- `FaultCollector::RegisterHook` (fccu.hpp lines 175-185). -/
def registerHook (cfg : Cfg) (c : Collector) (fault_index : Nat)
    (f : FaultEvent → HookAction) : FccuError × Collector :=
  if fault_index ≥ cfg.maxFaults then (.kInvalidIndex, c)
  else if ¬ (c.table fault_index).registered then (.kNotRegistered, c)
  else
    (.kOk,
     { c with
       table := Function.update c.table fault_index
         { c.table fault_index with hook := some f } })

/-- `FaultCollector::SetDefaultHook` (fccu.hpp lines 187-190). -/
def setDefaultHook (c : Collector) (f : Option (FaultEvent → HookAction)) : Collector :=
  { c with default_hook := f }

/-- `FaultCollector::SetOverflowCallback` (fccu.hpp lines 192-195). -/
def setOverflowCallback (c : Collector) (set : Bool) : Collector :=
  { c with has_overflow_cb := set }

/-- `FaultCollector::SetShutdownCallback` (fccu.hpp lines 197-200). -/
def setShutdownCallback (c : Collector) (set : Bool) : Collector :=
  { c with has_shutdown_cb := set }

/-- `FaultCollector::SetBusNotifier` (fccu.hpp lines 202-205). -/
def setBusNotifier (c : Collector) (set : Bool) : Collector :=
  { c with has_bus_cb := set }

/-- `FaultCollector::BindFaultHsm` (fccu.hpp lines 207-218): range-check the
index, fail with `kHsmSlotFull` when all `MaxPerFaultHsm` slots are taken,
otherwise record the index in the slot map and bind the slot's HSM.  Note
that the source never checks whether the index is already bound. -/
def bindFaultHsm (cfg : Cfg) (c : Collector) (fault_index threshold : Nat) :
    FccuError × Collector :=
  if fault_index ≥ cfg.maxFaults then (.kInvalidIndex, c)
  else if c.hsms.length ≥ cfg.maxPerFaultHsm then (.kHsmSlotFull, c)
  else
    (.kOk, { c with hsms := c.hsms ++ [(fault_index, PerFaultHsm.bindTo fault_index threshold)] })

/-- `FaultCollector::DispatchPerFaultEvent` (fccu.hpp lines 515-522): walk
the slot map in slot order and dispatch to the first slot whose recorded
index matches, then stop (the source `return`s after the first match). -/
def dispatchSlots (slots : List (Nat × PerFaultHsm)) (fault_index event_id : Nat) :
    List (Nat × PerFaultHsm) :=
  match slots with
  | [] => []
  | (fi, h) :: rest =>
    if fi = fault_index then (fi, h.dispatch event_id) :: rest
    else (fi, h) :: dispatchSlots rest fault_index event_id

/-- Dispatch an event to the per-fault HSM bound to `fault_index`, if any. -/
def dispatchPerFault (c : Collector) (fault_index event_id : Nat) : Collector :=
  { c with hsms := dispatchSlots c.hsms fault_index event_id }

/-- The global-HSM update performed at the end of a successful
`ReportFault` (fccu.hpp lines 266-272): dispatch `FaultReported` when Idle,
then dispatch `CriticalDetected` and increment `critical_count` when the
priority is Critical and the machine is not Degraded. -/
def reportGlobalUpdate (g : GlobalHsm) (priority : FaultPriority) : GlobalHsm :=
  let g1 := if g.st = .Idle then g.dispatch evtFaultReported else g
  if priority = .kCritical ∧ g1.st ≠ .Degraded then
    let g2 := g1.dispatch evtCriticalDetected
    { g2 with ctx := { g2.ctx with critical_count := g2.ctx.critical_count + 1 } }
  else g1

/-- The `FaultEntry` assembled by `ReportFault` (fccu.hpp lines 236-240):
the reported index, priority and detail, stamped with the clock value
captured at report time. -/
def reportedEntry (c : Collector) (fault_index detail : Nat)
    (priority : FaultPriority) : FaultEntry :=
  { fault_index := fault_index, priority := priority, detail := detail,
    timestamp_us := c.clock }

/-- `FaultCollector::ReportFault` (fccu.hpp lines 222-275).  The returned
effect list records the overflow-callback invocation of the drop path. -/
def reportFault (cfg : Cfg) (c : Collector) (fault_index detail : Nat)
    (priority : FaultPriority) : FccuError × Collector × List Effect :=
  if fault_index ≥ cfg.maxFaults then (.kInvalidIndex, c, [])
  else if ¬ (c.table fault_index).registered then (.kNotRegistered, c, [])
  else
    let level :=
      if priority.toNat ≥ cfg.queueLevels then cfg.queueLevels - 1 else priority.toNat
    let entry := reportedEntry c fault_index detail priority
    let c0 := { c with clock := c.clock + 1 }
    match qsPushWithAdmission cfg.queueLevels cfg.queueDepth c0.queues level entry with
    | none =>
      let st := c0.stats
      let st :=
        { st with
          total_dropped := st.total_dropped + 1
          priority_dropped :=
            if level < 4 then
              Function.update st.priority_dropped level (st.priority_dropped level + 1)
            else st.priority_dropped }
      (.kQueueFull, { c0 with stats := st },
       if c0.has_overflow_cb then [.overflowCall fault_index priority] else [])
    | some qs =>
      let c1 := { c0 with queues := qs, active := Function.update c0.active fault_index true }
      let st := c1.stats
      let st :=
        { st with
          total_reported := st.total_reported + 1
          priority_reported :=
            if level < 4 then
              Function.update st.priority_reported level (st.priority_reported level + 1)
            else st.priority_reported }
      let c2 := dispatchPerFault { c1 with stats := st } fault_index evtDetected
      (.kOk, { c2 with global_hsm := reportGlobalUpdate c2.global_hsm priority }, [])

/-- `FaultCollector::HandleEscalation` (fccu.hpp lines 488-501): a Critical
entry is left alone; otherwise a copy at the next-higher priority with a
fresh timestamp is re-enqueued by unconditional `Push`, and on push failure
only `total_dropped` is incremented (mirrored in the ghost `esc_dropped`). -/
def handleEscalation (cfg : Cfg) (c : Collector) (original : FaultEntry) : Collector :=
  let pri := original.priority.toNat
  if pri = 0 then c
  else
    let escalated : FaultEntry :=
      { original with priority := FaultPriority.ofVal (pri - 1), timestamp_us := c.clock }
    let c0 := { c with clock := c.clock + 1 }
    match qsPush cfg.queueLevels cfg.queueDepth c0.queues (pri - 1) escalated with
    | some qs => { c0 with queues := qs }
    | none =>
      { c0 with
        stats :=
          { c0.stats with
            total_dropped := c0.stats.total_dropped + 1
            esc_dropped := c0.stats.esc_dropped + 1 } }

/-- The `FaultEvent` that `FaultCollector::ProcessEntry` synthesizes for a
popped entry (fccu.hpp lines 430-439): the entry's fields merged with the
descriptor's `fault_code`, the post-increment occurrence count, and
`is_first`. -/
def eventOf (c : Collector) (entry : FaultEntry) : FaultEvent :=
  let prev := (c.table entry.fault_index).occurrence_count
  { fault_index := entry.fault_index
    priority := entry.priority
    fault_code := (c.table entry.fault_index).fault_code
    detail := entry.detail
    timestamp_us := entry.timestamp_us
    occurrence_count := prev + 1
    is_first := prev = 0 }

/-- The hook action `ProcessEntry` obtains for a popped entry (fccu.hpp
lines 455-460): the descriptor's hook if bound, else the default hook, else
`kHandled`. -/
def hookActionOf (c : Collector) (entry : FaultEntry) : HookAction :=
  match (c.table entry.fault_index).hook with
  | some f => f (eventOf c entry)
  | none =>
    match c.default_hook with
    | some f => f (eventOf c entry)
    | none => .kHandled

/-- `FaultCollector::AddToRecentRing` (fccu.hpp lines 503-513): the ring of
16 slots with a rotating head is embedded as the newest-first list of the
up-to-16 most recent events. -/
def addToRecentRing (c : Collector) (ev : FaultEvent) : Collector :=
  { c with
    recent :=
      ({ fault_index := ev.fault_index, detail := ev.detail, priority := ev.priority,
         timestamp_us := ev.timestamp_us : RecentFaultInfo } :: c.recent).take 16 }

/-- The `switch (action)` block of `FaultCollector::ProcessEntry`
(fccu.hpp lines 463-483), acting on the state reached just before the
switch. -/
def applyAction (cfg : Cfg) (c3 : Collector) (entry : FaultEntry) :
    HookAction → Collector × List Effect
  | .kHandled =>
    let ca := { c3 with active := Function.update c3.active entry.fault_index false }
    let cb := dispatchPerFault ca entry.fault_index evtClearFault
    let cc :=
      if activeFaultCount cfg cb.active = 0 then
        { cb with global_hsm := cb.global_hsm.dispatch evtAllCleared }
      else cb
    (cc, [])
  | .kEscalate => (handleEscalation cfg c3 entry, [])
  | .kDefer => (c3, [])
  | .kShutdown =>
    let ca :=
      { c3 with
        shutdown_requested := true
        global_hsm := c3.global_hsm.dispatch evtShutdownReq }
    (ca, if ca.has_shutdown_cb then [.shutdownCall] else [])

/-- `FaultCollector::ProcessEntry` (fccu.hpp lines 423-486). -/
def processEntry (cfg : Cfg) (c : Collector) (entry : FaultEntry) : Collector × List Effect :=
  if entry.fault_index ≥ cfg.maxFaults then (c, [])
  else
    let idx := entry.fault_index
    let ev := eventOf c entry
    let action := hookActionOf c entry
    let c1 :=
      { c with
        table := Function.update c.table idx
          { c.table idx with occurrence_count := (c.table idx).occurrence_count + 1 } }
    let c2 := addToRecentRing c1 ev
    let busEffs : List Effect := if c2.has_bus_cb then [.busNotify ev] else []
    let c3 :=
      if ev.occurrence_count ≥ (c.table idx).err_threshold then
        dispatchPerFault c2 idx evtConfirmed
      else c2
    let r := applyAction cfg c3 entry action
    ({ r.1 with stats := { r.1.stats with total_processed := r.1.stats.total_processed + 1 } },
     busEffs ++ .hookCall ev action :: r.2)

/-- The drain loop of `FaultCollector::ProcessFaults` (fccu.hpp lines
288-291), with an explicit fuel bound on the number of iterations (the
source loops until the queue set is empty; every terminating execution of
the source loop is `drainLoop` at a large enough fuel). -/
def drainLoop (cfg : Cfg) : Nat → Collector → Nat × Collector × List Effect
  | 0, c => (0, c, [])
  | fuel + 1, c =>
    match popScan c.queues with
    | none => (0, c, [])
    | some (entry, _, qs) =>
      let (c1, effs) := processEntry cfg { c with queues := qs } entry
      let (n, c2, effs') := drainLoop cfg fuel c1
      (n + 1, c2, effs ++ effs')

/-- `FaultCollector::ProcessFaults` (fccu.hpp lines 279-293): inert when
`shutdown_requested_` is set at entry, otherwise drain.  The shutdown flag
is checked only at entry, exactly as in the source. -/
def processFaults (cfg : Cfg) (fuel : Nat) (c : Collector) : Nat × Collector × List Effect :=
  if c.shutdown_requested then (0, c, [])
  else drainLoop cfg fuel c

/-- `FaultCollector::ClearFault` (fccu.hpp lines 314-326). -/
def clearFault (cfg : Cfg) (c : Collector) (fault_index : Nat) : Collector :=
  if fault_index ≥ cfg.maxFaults then c
  else
    let c1 :=
      { c with
        active := Function.update c.active fault_index false
        table := Function.update c.table fault_index
          { c.table fault_index with occurrence_count := 0 } }
    let c2 := dispatchPerFault c1 fault_index evtClearFault
    if activeFaultCount cfg c2.active = 0 then
      { c2 with global_hsm := c2.global_hsm.dispatch evtAllCleared }
    else c2

/-- `FaultCollector::ClearAllFaults` (fccu.hpp lines 328-339): zero the
whole bitmap, zero the occurrence counter of every in-range descriptor,
reset every bound per-fault HSM, dispatch `AllCleared` unconditionally. -/
def clearAllFaults (cfg : Cfg) (c : Collector) : Collector :=
  let c1 :=
    { c with
      active := fun _ => false
      table := fun i =>
        if i < cfg.maxFaults then { c.table i with occurrence_count := 0 } else c.table i
      hsms := c.hsms.map fun (s : Nat × PerFaultHsm) => (s.1, s.2.reset) }
  { c1 with global_hsm := c1.global_hsm.dispatch evtAllCleared }

/-- `FaultCollector::ResetStatistics` (fccu.hpp lines 353-361): zero every
counter (the ghost `esc_dropped` with them). -/
def resetStatistics (c : Collector) : Collector :=
  { c with stats := {} }

/-! ## Runs of the collector

A run is a sequence of calls to the mutating public operations, starting
from the default-constructed collector.  Results and effect traces are
observed through the individual operations; `step` keeps only the state. -/

/-- One call to a mutating public member of `FaultCollector`. -/
inductive Op where
  | register (fault_index fault_code attr err_threshold : Nat)
  | regHook (fault_index : Nat) (f : FaultEvent → HookAction)
  | setDefault (f : Option (FaultEvent → HookAction))
  | setOverflowCb (set : Bool)
  | setShutdownCb (set : Bool)
  | setBusCb (set : Bool)
  | bindHsm (fault_index threshold : Nat)
  | report (fault_index detail : Nat) (priority : FaultPriority)
  | process (fuel : Nat)
  | clear (fault_index : Nat)
  | clearAll
  | resetStats

/-- The state transformer of one operation. -/
def step (cfg : Cfg) (c : Collector) : Op → Collector
  | .register i code attr thr => (registerFault cfg c i code attr thr).2
  | .regHook i f => (registerHook cfg c i f).2
  | .setDefault f => setDefaultHook c f
  | .setOverflowCb b => setOverflowCallback c b
  | .setShutdownCb b => setShutdownCallback c b
  | .setBusCb b => setBusNotifier c b
  | .bindHsm i thr => (bindFaultHsm cfg c i thr).2
  | .report i d p => (reportFault cfg c i d p).2.1
  | .process fuel => (processFaults cfg fuel c).2.1
  | .clear i => clearFault cfg c i
  | .clearAll => clearAllFaults cfg c
  | .resetStats => resetStatistics c

/-- The collector state after a sequence of operations from the
default-constructed collector. -/
def run (cfg : Cfg) (ops : List Op) : Collector :=
  ops.foldl (step cfg) (initCollector cfg)

/-- The sum over the four priorities of a per-priority counter array. -/
def sum4 (f : Nat → Nat) : Nat := f 0 + f 1 + f 2 + f 3

/-- The per-fault HSM state bound to a fault index, if any: the first slot
in slot order whose recorded index matches (the one `DispatchPerFaultEvent`
routes to). -/
def hsmStateOf (c : Collector) (fault_index : Nat) : Option PState :=
  (c.hsms.find? fun s => s.1 = fault_index).map fun s => s.2.st

/-- The statistics invariant of the source, sharpened by the ghost counter:
per-priority reported counters sum to the total, and per-priority dropped
counters sum to the total minus the drops recorded by failed escalation
re-enqueues (which the source adds to the total only). -/
def statsInv (s : Stats) : Prop :=
  s.total_reported = sum4 s.priority_reported ∧
  s.total_dropped = sum4 s.priority_dropped + s.esc_dropped

/-- The exact claimed relation of spec Section 3, invariant 4. -/
def claimedStatsInv (s : Stats) : Prop :=
  s.total_reported = sum4 s.priority_reported ∧
  s.total_dropped = sum4 s.priority_dropped

instance (s : Stats) : Decidable (claimedStatsInv s) := by
  unfold claimedStatsInv; infer_instance

/-- The configuration of the repository's test suite:
`FaultCollector<16, 8, 4, 4>` (test_fccu.cpp line 14). -/
def testCfg : Cfg := ⟨16, 8, 4, 4⟩

/-- A collector with fault 0 registered, a hook on 0 returning `Shutdown`,
and the shutdown callback installed (a witness state). -/
def shutdownHookState : Collector :=
  run testCfg [.register 0 1 0 1, .regHook 0 (fun _ => .kShutdown), .setShutdownCb true]

/-- A sample queued entry for fault 0 (a witness input). -/
def sampleEntry : FaultEntry := ⟨0, .kMedium, 7, 0⟩

/-- A collector with fault 0 registered, a per-fault HSM bound to 0 and one
Medium report admitted, whose bound HSM is therefore in Detected (a witness
state for double-clear behaviour). -/
def boundReportedState : Collector :=
  run testCfg [.register 0 9 0 1, .bindHsm 0 1, .report 0 0 .kMedium]

/-- A fresh collector with fault 0 registered under code 0x1001 (a witness
state). -/
def registeredState : Collector := run testCfg [.register 0 0x1001 0 1]

/-! ## Theorems -/

/-- The admission thresholds never exceed the physical capacity. -/
lemma pct_div_le (cap k : Nat) (hk : k ≤ 100) : cap * k / 100 ≤ cap := by
  have h1 : cap * k ≤ cap * 100 := Nat.mul_le_mul_left cap hk
  calc cap * k / 100 ≤ cap * 100 / 100 := Nat.div_le_div_right h1
    _ = cap := Nat.mul_div_cancel cap (by norm_num)

/-- C4.  `PushWithAdmission(level, item)` succeeds exactly when the level is
in range and the target ring's fill is strictly below the effective bound:
the physical capacity at level 0, `(QueueDepth*99)/100` at level 1,
`(QueueDepth*80)/100` at level 2 and `(QueueDepth*60)/100` at level 3 and
above, all in integer arithmetic; admission rejection and physical
queue-full both surface as the same `none`/false outcome. -/
theorem pushWithAdmission_spec (levels cap : Nat) (qs : List (List FaultEntry))
    (level : Nat) (item : FaultEntry) :
    (qsPushWithAdmission levels cap qs level item).isSome ↔
      level < levels ∧ (qs.getD level []).length < specAdmissionBound cap level := by
  have h99 := pct_div_le cap 99 (by norm_num)
  have h80 := pct_div_le cap 80 (by norm_num)
  have h60 := pct_div_le cap 60 (by norm_num)
  unfold qsPushWithAdmission qsPush ringPush admitByPriority specAdmissionBound
  unfold kHighThreshold kMediumThreshold kLowThreshold
  split_ifs with h1 h2 h3 h4 h5 <;>
    simp_all <;> omega

/-- C5.  `Pop` never returns an entry while a strictly higher-priority
(lower-index) level is non-empty: it fails exactly when every level is
empty, and a successful pop takes the head of the first non-empty level,
reports that level, and leaves all strictly lower-index levels empty. -/
theorem popScan_spec (qs : List (List FaultEntry)) :
    (popScan qs = none ↔ ∀ q ∈ qs, q = []) ∧
    ∀ e k qs', popScan qs = some (e, k, qs') →
      k < qs.length ∧ (qs.getD k []).head? = some e ∧
      (∀ j, j < k → qs.getD j [] = []) ∧
      qs' = qs.set k (qs.getD k []).tail := by
  induction qs with
  | nil => simp [popScan]
  | cons q rest ih =>
    cases q with
    | cons x xs =>
      constructor
      · simp [popScan]
      · intro e k qs' h
        simp only [popScan] at h
        obtain ⟨rfl, rfl, rfl⟩ : x = e ∧ 0 = k ∧ xs :: rest = qs' := by
          simpa using h
        refine ⟨Nat.succ_pos _, rfl, by omega, rfl⟩
    | nil =>
      constructor
      · constructor
        · intro h qq hq
          simp only [popScan] at h
          rcases List.mem_cons.mp hq with rfl | hq1
          · rfl
          · rcases hrest : popScan rest with _ | ⟨e, lvl, rest'⟩
            · exact (ih.1.mp hrest) qq hq1
            · rw [hrest] at h; exact absurd h (by simp)
        · intro h
          simp only [popScan]
          have : popScan rest = none := ih.1.mpr (fun qq hq => h qq (by simp [hq]))
          rw [this]
      · intro e k qs' h
        simp only [popScan] at h
        rcases hrest : popScan rest with _ | ⟨⟨e0, lvl, rest'⟩⟩
        · rw [hrest] at h; exact absurd h (by simp)
        · rw [hrest] at h
          have h' : e0 = e ∧ lvl + 1 = k ∧ ([] : List FaultEntry) :: rest' = qs' := by
            simpa using h
          obtain ⟨he, hk, hq⟩ := h'
          subst he; subst hk; subst hq
          obtain ⟨hk', hhead, hlow, hset⟩ := ih.2 e0 lvl rest' hrest
          refine ⟨by simpa using hk', by simpa using hhead, ?_, by simp [hset]⟩
          intro j hj
          cases j with
          | zero => rfl
          | succ j => exact hlow j (by omega)

/-- Witness for C5 at a concrete queue set: level 0 empty, level 1 holding
one entry; `Pop` takes it from level 1 and level 0 is empty. -/
theorem popScan_spec_witness :
    (([[], [⟨5, .kHigh, 0, 0⟩]] : List (List FaultEntry)).getD 1 []).head? =
        some ⟨5, .kHigh, 0, 0⟩ ∧
      (∀ j, j < 1 → ([[], [⟨5, .kHigh, 0, 0⟩]] : List (List FaultEntry)).getD j [] = []) := by
  have h := (popScan_spec [[], [⟨5, .kHigh, 0, 0⟩]]).2 ⟨5, .kHigh, 0, 0⟩ 1 [[], []] (by rfl)
  exact ⟨h.2.1, h.2.2.1⟩

/-! ### The statistics invariant (C1) -/

lemma sum4_update_succ (f : Nat → Nat) (l : Nat) (hl : l < 4) :
    sum4 (Function.update f l (f l + 1)) = sum4 f + 1 := by
  interval_cases l <;>
    simp [sum4, Function.update_apply] <;> omega

/-- The clamped level computed by `ReportFault` is always below 4. -/
lemma levelOf_lt4 (qL : Nat) (p : FaultPriority) :
    (if p.toNat ≥ qL then qL - 1 else p.toNat) < 4 := by
  cases p <;> simp only [FaultPriority.toNat] <;> split_ifs <;> omega

lemma registerFault_stats (cfg : Cfg) (c : Collector) (i a b t : Nat) :
    ((registerFault cfg c i a b t).2).stats = c.stats := by
  unfold registerFault; split_ifs <;> rfl

lemma registerHook_stats (cfg : Cfg) (c : Collector) (i : Nat) (f : FaultEvent → HookAction) :
    ((registerHook cfg c i f).2).stats = c.stats := by
  unfold registerHook; split_ifs <;> rfl

lemma bindFaultHsm_stats (cfg : Cfg) (c : Collector) (i t : Nat) :
    ((bindFaultHsm cfg c i t).2).stats = c.stats := by
  unfold bindFaultHsm; split_ifs <;> rfl

lemma clearFault_stats (cfg : Cfg) (c : Collector) (i : Nat) :
    (clearFault cfg c i).stats = c.stats := by
  unfold clearFault; dsimp only; split_ifs <;> rfl

lemma clearAllFaults_stats (cfg : Cfg) (c : Collector) :
    (clearAllFaults cfg c).stats = c.stats := rfl

lemma reportFault_statsInv (cfg : Cfg) (c : Collector) (i d : Nat) (p : FaultPriority)
    (h : statsInv c.stats) : statsInv ((reportFault cfg c i d p).2.1).stats := by
  obtain ⟨hr, hd⟩ := h
  have hlvl := levelOf_lt4 cfg.queueLevels p
  unfold reportFault statsInv
  split
  · exact ⟨hr, hd⟩
  · split
    · exact ⟨hr, hd⟩
    · dsimp only
      set L := (if p.toNat ≥ cfg.queueLevels then cfg.queueLevels - 1 else p.toNat) with hL
      simp only [if_pos hlvl]
      split
      · dsimp only
        exact ⟨hr, by rw [sum4_update_succ _ _ hlvl]; omega⟩
      · dsimp only [dispatchPerFault]
        exact ⟨by rw [sum4_update_succ _ _ hlvl]; omega, hd⟩

lemma handleEscalation_statsInv (cfg : Cfg) (c : Collector) (e : FaultEntry)
    (h : statsInv c.stats) : statsInv (handleEscalation cfg c e).stats := by
  obtain ⟨hr, hd⟩ := h
  unfold handleEscalation statsInv
  dsimp only
  split
  · exact ⟨hr, hd⟩
  · split
    · exact ⟨hr, hd⟩
    · exact ⟨hr, by dsimp only; omega⟩

lemma applyAction_statsInv (cfg : Cfg) (c3 : Collector) (e : FaultEntry) (a : HookAction)
    (h : statsInv c3.stats) : statsInv ((applyAction cfg c3 e a).1).stats := by
  cases a with
  | kHandled =>
    unfold applyAction; dsimp only; split_ifs <;> exact h
  | kEscalate => exact handleEscalation_statsInv cfg c3 e h
  | kDefer => exact h
  | kShutdown => exact h

lemma processEntry_statsInv (cfg : Cfg) (c : Collector) (e : FaultEntry)
    (h : statsInv c.stats) : statsInv ((processEntry cfg c e).1).stats := by
  unfold processEntry
  split
  · exact h
  · dsimp only
    have h3 : ∀ c3 : Collector, c3.stats = c.stats → ∀ a,
        statsInv ((applyAction cfg c3 e a).1).stats := by
      intro c3 hc3 a
      exact applyAction_statsInv cfg c3 e a (hc3 ▸ h)
    have hmain : statsInv ((applyAction cfg
        (if (eventOf c e).occurrence_count ≥ (c.table e.fault_index).err_threshold then
          dispatchPerFault (addToRecentRing { c with
            table := Function.update c.table e.fault_index
              { c.table e.fault_index with
                occurrence_count := (c.table e.fault_index).occurrence_count + 1 } }
            (eventOf c e)) e.fault_index evtConfirmed
        else addToRecentRing { c with
            table := Function.update c.table e.fault_index
              { c.table e.fault_index with
                occurrence_count := (c.table e.fault_index).occurrence_count + 1 } }
            (eventOf c e)) e (hookActionOf c e)).1).stats := by
      apply h3
      split_ifs <;> rfl
    exact ⟨hmain.1, hmain.2⟩

lemma drainLoop_statsInv (cfg : Cfg) :
    ∀ (fuel : Nat) (c : Collector), statsInv c.stats →
      statsInv ((drainLoop cfg fuel c).2.1).stats := by
  intro fuel
  induction fuel with
  | zero => intro c h; exact h
  | succ n ih =>
    intro c h
    unfold drainLoop
    split
    · exact h
    · exact ih _ (processEntry_statsInv _ _ _ h)

lemma processFaults_statsInv (cfg : Cfg) (fuel : Nat) (c : Collector)
    (h : statsInv c.stats) : statsInv ((processFaults cfg fuel c).2.1).stats := by
  unfold processFaults
  split_ifs
  · exact h
  · exact drainLoop_statsInv cfg fuel c h

lemma step_statsInv (cfg : Cfg) (c : Collector) (op : Op)
    (h : statsInv c.stats) : statsInv (step cfg c op).stats := by
  cases op with
  | register i a b t => rw [step, registerFault_stats]; exact h
  | regHook i f => rw [step, registerHook_stats]; exact h
  | setDefault f => exact h
  | setOverflowCb b => exact h
  | setShutdownCb b => exact h
  | setBusCb b => exact h
  | bindHsm i t => rw [step, bindFaultHsm_stats]; exact h
  | report i d p => exact reportFault_statsInv cfg c i d p h
  | process fuel => exact processFaults_statsInv cfg fuel c h
  | clear i => rw [step, clearFault_stats]; exact h
  | clearAll => rw [step, clearAllFaults_stats]; exact h
  | resetStats => exact ⟨rfl, rfl⟩

lemma foldl_statsInv (cfg : Cfg) :
    ∀ (ops : List Op) (c : Collector), statsInv c.stats →
      statsInv (ops.foldl (step cfg) c).stats := by
  intro ops
  induction ops with
  | nil => intro c h; exact h
  | cons op rest ih => intro c h; exact ih _ (step_statsInv cfg c op h)

/-- C1 (amended).  In every run of the collector, `total_reported` equals
the sum over the four priorities of `priority_reported`, and
`total_dropped` equals the sum over the four priorities of
`priority_dropped` plus the number of failed escalation re-enqueues (which
`HandleEscalation` adds to the total only, tracked by the ghost counter
`esc_dropped`); the plain equality `total_dropped = Σ priority_dropped`
claimed by the spec is therefore broken by exactly the failed-escalation
drops. -/
theorem run_statsInv (cfg : Cfg) (ops : List Op) :
    (run cfg ops).stats.total_reported = sum4 (run cfg ops).stats.priority_reported ∧
    (run cfg ops).stats.total_dropped =
      sum4 (run cfg ops).stats.priority_dropped + (run cfg ops).stats.esc_dropped := by
  exact foldl_statsInv cfg ops (initCollector cfg) ⟨rfl, rfl⟩

/-- C1 counterexample.  With `QueueLevels = 2`, a Low-priority report is
clamped into level 1, and an `Escalate` hook re-enqueues it at level
`3 - 1 = 2`, which is out of range: the unconditional `Push` fails, and
`HandleEscalation` bumps `total_dropped` without touching any per-priority
drop counter, so after this run `total_dropped = 1` while the per-priority
drops sum to `0`. -/
theorem claim1_counterexample :
    ¬ claimedStatsInv (run ⟨1, 2, 2, 4⟩
      [.register 0 7 0 1, .regHook 0 (fun _ => .kEscalate),
       .report 0 0 .kLow, .process 5]).stats := by
  decide

/-! ### Registration (C7) -/

/-- C7 (amended).  `RegisterFault` fails with `InvalidIndex` out of range
and `AlreadyRegistered` on a registered descriptor, and otherwise stores
`code`, `attr` and `err_threshold` verbatim — an `err_threshold` of 0 is
stored as 0, not clamped to 1 — sets `registered`, leaves the occurrence
counter and hook binding alone, and returns `Ok`. -/
theorem registerFault_spec (cfg : Cfg) (c : Collector) (i code attr thr : Nat) :
    (i ≥ cfg.maxFaults → registerFault cfg c i code attr thr = (.kInvalidIndex, c)) ∧
    (i < cfg.maxFaults → (c.table i).registered = true →
      registerFault cfg c i code attr thr = (.kAlreadyRegistered, c)) ∧
    (i < cfg.maxFaults → (c.table i).registered = false →
      (registerFault cfg c i code attr thr).1 = .kOk ∧
      (registerFault cfg c i code attr thr).2.table i =
        { fault_code := code, attr := attr, err_threshold := thr, registered := true,
          occurrence_count := (c.table i).occurrence_count, hook := (c.table i).hook }) := by
  refine ⟨fun h => ?_, fun h hreg => ?_, fun h hreg => ?_⟩
  · rw [registerFault, if_pos h]
  · rw [registerFault, if_neg (by omega), if_pos hreg]
  · rw [registerFault, if_neg (by omega), if_neg (by simp [hreg])]
    exact ⟨rfl, by simp⟩

/-- Witness for C7 at the test configuration: registering index 0 with
`err_threshold = 0` on a fresh collector succeeds and stores threshold 0. -/
theorem registerFault_spec_witness :
    (0 : Nat) < testCfg.maxFaults ∧
    ((initCollector testCfg).table 0).registered = false ∧
    ((registerFault testCfg (initCollector testCfg) 0 7 9 0).1 = .kOk ∧
      (registerFault testCfg (initCollector testCfg) 0 7 9 0).2.table 0 =
        { fault_code := 7, attr := 9, err_threshold := 0, registered := true,
          occurrence_count := (((initCollector testCfg).table 0)).occurrence_count,
          hook := (((initCollector testCfg).table 0)).hook }) :=
  ⟨by decide, rfl,
   (registerFault_spec testCfg (initCollector testCfg) 0 7 9 0).2.2 (by decide) rfl⟩

/-- C7 counterexample.  The claim says an `err_threshold` argument of 0 is
stored clamped to 1; the source stores it verbatim: registering with
threshold 0 succeeds and the stored threshold is 0, not 1. -/
theorem claim7_counterexample :
    (registerFault testCfg (initCollector testCfg) 0 7 9 0).1 = .kOk ∧
    ((registerFault testCfg (initCollector testCfg) 0 7 9 0).2.table 0).err_threshold = 0 ∧
    ((registerFault testCfg (initCollector testCfg) 0 7 9 0).2.table 0).err_threshold ≠ 1 := by
  refine ⟨rfl, rfl, by decide⟩

/-! ### Per-fault HSM binding (C8) -/

/-- C8 (amended).  `BindFaultHsm` range-checks the index, fails with
`HsmSlotFull` once `MaxPerFaultHsm` bindings exist, and otherwise appends a
new slot — without checking whether the index is already bound, so two
occupied slots may carry the same fault index; events are routed only to
the earliest matching slot. -/
theorem bindFaultHsm_spec (cfg : Cfg) (c : Collector) (i thr : Nat) :
    (i ≥ cfg.maxFaults → bindFaultHsm cfg c i thr = (.kInvalidIndex, c)) ∧
    (i < cfg.maxFaults → c.hsms.length ≥ cfg.maxPerFaultHsm →
      bindFaultHsm cfg c i thr = (.kHsmSlotFull, c)) ∧
    (i < cfg.maxFaults → c.hsms.length < cfg.maxPerFaultHsm →
      bindFaultHsm cfg c i thr =
        (.kOk, { c with hsms := c.hsms ++ [(i, PerFaultHsm.bindTo i thr)] })) ∧
    (∀ (h : PerFaultHsm) (rest : List (Nat × PerFaultHsm)) (e : Nat),
      dispatchSlots ((i, h) :: rest) i e = (i, h.dispatch e) :: rest) := by
  refine ⟨fun h => ?_, fun h hfull => ?_, fun h havail => ?_, fun h rest e => ?_⟩
  · rw [bindFaultHsm, if_pos h]
  · rw [bindFaultHsm, if_neg (by omega), if_pos hfull]
  · rw [bindFaultHsm, if_neg (by omega), if_neg (by omega)]
  · rw [dispatchSlots, if_pos rfl]

/-- Witness for C8 at the test configuration: binding index 0 on a fresh
collector appends the slot `(0, bound HSM)`. -/
theorem bindFaultHsm_spec_witness :
    (0 : Nat) < testCfg.maxFaults ∧
    (initCollector testCfg).hsms.length < testCfg.maxPerFaultHsm ∧
    bindFaultHsm testCfg (initCollector testCfg) 0 3 =
      (.kOk, { initCollector testCfg with hsms := [(0, PerFaultHsm.bindTo 0 3)] }) := by
  refine ⟨by decide, by decide, ?_⟩
  have := (bindFaultHsm_spec testCfg (initCollector testCfg) 0 3).2.2.1 (by decide) (by decide)
  simpa using this

/-- C8 counterexample.  `BindFaultHsm(0)` twice both return `Ok` and leave
two occupied slots carrying fault index 0 — the slot map `[0, 0]` has a
duplicate, refuting "no two occupied slots carry the same fault index". -/
theorem claim8_counterexample :
    (bindFaultHsm testCfg (initCollector testCfg) 0 1).1 = .kOk ∧
    (bindFaultHsm testCfg (bindFaultHsm testCfg (initCollector testCfg) 0 1).2 0 1).1 = .kOk ∧
    ((bindFaultHsm testCfg
        (bindFaultHsm testCfg (initCollector testCfg) 0 1).2 0 1).2.hsms.map Prod.fst)
      = [0, 0] ∧
    ¬ ((bindFaultHsm testCfg
        (bindFaultHsm testCfg (initCollector testCfg) 0 1).2 0 1).2.hsms.map Prod.fst).Nodup := by
  refine ⟨rfl, rfl, rfl, by decide⟩

/-! ### Shutdown permanence (C10) -/

lemma reportFault_shutdown (cfg : Cfg) (c : Collector) (i d : Nat) (p : FaultPriority) :
    ((reportFault cfg c i d p).2.1).shutdown_requested = c.shutdown_requested := by
  unfold reportFault
  split
  · rfl
  · split
    · rfl
    · dsimp only
      split <;> rfl

lemma clearFault_shutdown (cfg : Cfg) (c : Collector) (i : Nat) :
    (clearFault cfg c i).shutdown_requested = c.shutdown_requested := by
  unfold clearFault; dsimp only; split_ifs <;> rfl

/-- No public operation ever writes `false` into `shutdown_requested_`:
once set, one step keeps it set. -/
lemma step_shutdown_mono (cfg : Cfg) (c : Collector) (op : Op)
    (h : c.shutdown_requested = true) : (step cfg c op).shutdown_requested = true := by
  cases op with
  | register i a b t =>
    show ((registerFault cfg c i a b t).2).shutdown_requested = true
    unfold registerFault; split_ifs <;> exact h
  | regHook i f =>
    show ((registerHook cfg c i f).2).shutdown_requested = true
    unfold registerHook; split_ifs <;> exact h
  | setDefault f => exact h
  | setOverflowCb b => exact h
  | setShutdownCb b => exact h
  | setBusCb b => exact h
  | bindHsm i t =>
    show ((bindFaultHsm cfg c i t).2).shutdown_requested = true
    unfold bindFaultHsm; split_ifs <;> exact h
  | report i d p =>
    show ((reportFault cfg c i d p).2.1).shutdown_requested = true
    rw [reportFault_shutdown]; exact h
  | process fuel =>
    show ((processFaults cfg fuel c).2.1).shutdown_requested = true
    unfold processFaults; rw [if_pos h]; exact h
  | clear i =>
    show (clearFault cfg c i).shutdown_requested = true
    rw [clearFault_shutdown]; exact h
  | clearAll => exact h
  | resetStats => exact h

lemma foldl_shutdown_mono (cfg : Cfg) :
    ∀ (ops : List Op) (c : Collector), c.shutdown_requested = true →
      (ops.foldl (step cfg) c).shutdown_requested = true := by
  intro ops
  induction ops with
  | nil => intro c h; exact h
  | cons op rest ih => intro c h; exact ih _ (step_shutdown_mono cfg c op h)

/-- C10.  Once `shutdown_requested` is set, no sequence of public
operations — clears, statistics resets, registrations, bindings, reports or
further processing — ever resets it: `IsShutdownRequested()` stays true. -/
theorem shutdown_requested_permanent (cfg : Cfg) (c : Collector) (ops : List Op)
    (h : c.shutdown_requested = true) :
    (ops.foldl (step cfg) c).shutdown_requested = true :=
  foldl_shutdown_mono cfg ops c h

/-- Witness for C10: a run whose hook requests shutdown, followed by
`ClearAllFaults`, `ClearFault` and `ResetStatistics`, still reports
shutdown requested. -/
theorem shutdown_requested_permanent_witness :
    (run testCfg [.register 0 1 0 1, .regHook 0 (fun _ => .kShutdown),
        .report 0 0 .kMedium, .process 3]).shutdown_requested = true ∧
    (([Op.clearAll, .clear 0, .resetStats].foldl (step testCfg)
        (run testCfg [.register 0 1 0 1, .regHook 0 (fun _ => .kShutdown),
          .report 0 0 .kMedium, .process 3]))).shutdown_requested = true := by
  constructor
  · decide
  · exact shutdown_requested_permanent testCfg _ _ (by decide)

/-! ### Successful reports (C9, C3) -/

/-- A successful `PushWithAdmission` appends the item at the back of the
target level and touches no other level. -/
lemma qsPushWithAdmission_some (levels cap : Nat) (qs : List (List FaultEntry))
    (level : Nat) (item : FaultEntry) (qs' : List (List FaultEntry))
    (h : qsPushWithAdmission levels cap qs level item = some qs') :
    level < levels ∧ qs' = qs.set level (qs.getD level [] ++ [item]) := by
  have h1 : ¬ level ≥ levels := by
    intro hge
    rw [qsPushWithAdmission, if_pos hge] at h
    exact absurd h (by simp)
  rw [qsPushWithAdmission, if_neg h1] at h
  split_ifs at h with h2
  rw [qsPush, if_neg h1] at h
  rcases hr : ringPush cap (qs.getD level []) item with _ | q
  · rw [hr] at h; exact absurd h (by simp)
  · rw [hr] at h
    rw [ringPush] at hr
    split_ifs at hr
    simp only [Option.some.injEq] at h hr
    exact ⟨by omega, by rw [← h, ← hr]⟩

/-- What a successful `ReportFault` guarantees: the index was in range and
registered; the global HSM undergoes exactly `reportGlobalUpdate`; the
fault table is untouched; and the assembled entry was appended to the
clamped level of the queue set. -/
lemma reportFault_ok_spec (cfg : Cfg) (c : Collector) (i d : Nat) (p : FaultPriority)
    (hok : (reportFault cfg c i d p).1 = .kOk) :
    i < cfg.maxFaults ∧ (c.table i).registered = true ∧
    (reportFault cfg c i d p).2.1.global_hsm = reportGlobalUpdate c.global_hsm p ∧
    (reportFault cfg c i d p).2.1.table = c.table ∧
    ∃ qs, qsPushWithAdmission cfg.queueLevels cfg.queueDepth c.queues
        (if p.toNat ≥ cfg.queueLevels then cfg.queueLevels - 1 else p.toNat)
        (reportedEntry c i d p) = some qs ∧
      (reportFault cfg c i d p).2.1.queues = qs := by
  unfold reportFault at hok ⊢
  dsimp only at hok ⊢
  generalize hL : (if p.toNat ≥ cfg.queueLevels then cfg.queueLevels - 1 else p.toNat) = L at hok ⊢
  by_cases h1 : i ≥ cfg.maxFaults
  · rw [if_pos h1] at hok; simp at hok
  rw [if_neg h1] at hok ⊢
  by_cases h2 : ¬ (c.table i).registered = true
  · rw [if_pos h2] at hok; simp at hok
  rw [if_neg h2] at hok ⊢
  rcases hpush : qsPushWithAdmission cfg.queueLevels cfg.queueDepth c.queues L
      (reportedEntry c i d p) with _ | qs
  · rw [hpush] at hok; simp at hok
  · rw [hpush] at hok
    refine ⟨by omega, by simpa using h2, ?_, ?_, qs, rfl, ?_⟩ <;>
      dsimp only [dispatchPerFault]

/-- The global update on an Idle machine for a Critical report: dispatching
`FaultReported` moves Idle to Active, dispatching `CriticalDetected` moves
Active to Degraded, and the critical counter is incremented. -/
lemma reportGlobalUpdate_idle_critical (g : GlobalHsm) (hg : g.st = .Idle) :
    (g.dispatch evtFaultReported).st = .Active ∧
    ((g.dispatch evtFaultReported).dispatch evtCriticalDetected).st = .Degraded ∧
    reportGlobalUpdate g .kCritical =
      { st := .Degraded, ctx := { g.ctx with critical_count := g.ctx.critical_count + 1 } } := by
  obtain ⟨st, ctx⟩ := g
  dsimp only at hg
  subst hg
  refine ⟨rfl, rfl, ?_⟩
  simp [reportGlobalUpdate, GlobalHsm.dispatch, evtFaultReported, evtCriticalDetected,
    evtAllCleared, evtShutdownReq, evtDegradeRecovered]

/-- C9.  When the global HSM is Idle and a Critical-priority report
succeeds, the single `ReportFault` call drives the global HSM through
`FaultReported` (Idle to Active) and `CriticalDetected` (Active to
Degraded) and increments `critical_count`: the machine is Degraded
immediately after `ReportFault` returns, before any `ProcessFaults`. -/
theorem report_critical_degrades (cfg : Cfg) (c : Collector) (i d : Nat)
    (hidle : c.global_hsm.st = .Idle)
    (hok : (reportFault cfg c i d .kCritical).1 = .kOk) :
    (c.global_hsm.dispatch evtFaultReported).st = .Active ∧
    ((c.global_hsm.dispatch evtFaultReported).dispatch evtCriticalDetected).st = .Degraded ∧
    (reportFault cfg c i d .kCritical).2.1.global_hsm.st = .Degraded ∧
    (reportFault cfg c i d .kCritical).2.1.global_hsm.ctx.critical_count =
      c.global_hsm.ctx.critical_count + 1 := by
  obtain ⟨hstep1, hstep2, hval⟩ := reportGlobalUpdate_idle_critical c.global_hsm hidle
  obtain ⟨-, -, hglobal, -, -⟩ := reportFault_ok_spec cfg c i d .kCritical hok
  refine ⟨hstep1, hstep2, ?_, ?_⟩ <;> rw [hglobal, hval]

/-- Witness for C9: on the test configuration, a fresh collector with
index 0 registered is Idle; reporting a Critical fault leaves the global
HSM Degraded with `critical_count = 1`. -/
theorem report_critical_degrades_witness :
    (run testCfg [.register 0 1 0 1]).global_hsm.st = .Idle ∧
    (reportFault testCfg (run testCfg [.register 0 1 0 1]) 0 5 .kCritical).1 = .kOk ∧
    (reportFault testCfg (run testCfg [.register 0 1 0 1]) 0 5 .kCritical).2.1.global_hsm.st
      = .Degraded ∧
    (reportFault testCfg (run testCfg [.register 0 1 0 1]) 0 5 .kCritical).2.1.global_hsm.ctx.critical_count
      = (run testCfg [.register 0 1 0 1]).global_hsm.ctx.critical_count + 1 := by
  have h := report_critical_degrades testCfg (run testCfg [.register 0 1 0 1]) 0 5
    (by decide) (by decide)
  exact ⟨by decide, by decide, h.2.2.1, h.2.2.2⟩

/-! ### Shutdown action of a processed entry (C2) -/

/-- C2.  Processing an entry whose hook returns `Shutdown` sets
`shutdown_requested`, dispatches `ShutdownReq` to the global state machine,
invokes the shutdown callback when one is set, and makes every subsequent
`ProcessFaults` call — after any further sequence of public operations —
return 0 with the state (in particular the queue set) untouched and no
effects. -/
theorem processEntry_shutdown_spec (cfg : Cfg) (c : Collector) (entry : FaultEntry)
    (hidx : entry.fault_index < cfg.maxFaults)
    (hact : hookActionOf c entry = HookAction.kShutdown) :
    (processEntry cfg c entry).1.shutdown_requested = true ∧
    (processEntry cfg c entry).1.global_hsm = c.global_hsm.dispatch evtShutdownReq ∧
    (c.has_shutdown_cb = true → Effect.shutdownCall ∈ (processEntry cfg c entry).2) ∧
    ∀ (more : List Op) (fuel : Nat),
      processFaults cfg fuel (more.foldl (step cfg) (processEntry cfg c entry).1) =
        (0, more.foldl (step cfg) (processEntry cfg c entry).1, []) := by
  have hmain : (processEntry cfg c entry).1.shutdown_requested = true ∧
      (processEntry cfg c entry).1.global_hsm = c.global_hsm.dispatch evtShutdownReq ∧
      (c.has_shutdown_cb = true → Effect.shutdownCall ∈ (processEntry cfg c entry).2) := by
    unfold processEntry
    rw [if_neg (by omega)]
    dsimp only
    rw [hact]
    unfold applyAction
    dsimp only
    refine ⟨rfl, ?_, ?_⟩
    · split <;> rfl
    · intro hcb
      dsimp only [dispatchPerFault, addToRecentRing]
      split_ifs <;> simp_all [List.mem_append]
  refine ⟨hmain.1, hmain.2.1, hmain.2.2, fun more fuel => ?_⟩
  have hs : (more.foldl (step cfg) (processEntry cfg c entry).1).shutdown_requested = true :=
    foldl_shutdown_mono cfg more _ hmain.1
  rw [processFaults, if_pos hs]

/-- Witness for C2: in `shutdownHookState` the hook for fault 0 returns
`Shutdown`; processing `sampleEntry` sets the flag, moves the global HSM by
`ShutdownReq`, emits the shutdown callback, and a later `ProcessFaults`
(after a `ClearAllFaults`) returns 0 and changes nothing. -/
theorem processEntry_shutdown_spec_witness :
    sampleEntry.fault_index < testCfg.maxFaults ∧
    hookActionOf shutdownHookState sampleEntry = HookAction.kShutdown ∧
    (processEntry testCfg shutdownHookState sampleEntry).1.shutdown_requested = true ∧
    (processEntry testCfg shutdownHookState sampleEntry).1.global_hsm =
      shutdownHookState.global_hsm.dispatch evtShutdownReq ∧
    Effect.shutdownCall ∈ (processEntry testCfg shutdownHookState sampleEntry).2 ∧
    processFaults testCfg 3
        ([Op.clearAll].foldl (step testCfg) (processEntry testCfg shutdownHookState sampleEntry).1) =
      (0, [Op.clearAll].foldl (step testCfg) (processEntry testCfg shutdownHookState sampleEntry).1,
        []) := by
  have h := processEntry_shutdown_spec testCfg shutdownHookState sampleEntry
    (by decide) (by decide)
  exact ⟨by decide, by decide, h.1, h.2.1, h.2.2.1 (by decide), h.2.2.2 [Op.clearAll] 3⟩

/-! ### Double clear (C6) -/

lemma clearFault_active (cfg : Cfg) (c : Collector) (i : Nat) (hi : i < cfg.maxFaults) :
    (clearFault cfg c i).active = Function.update c.active i false := by
  rw [clearFault, if_neg (by omega)]
  dsimp only [dispatchPerFault]
  split_ifs <;> rfl

lemma clearFault_table (cfg : Cfg) (c : Collector) (i : Nat) (hi : i < cfg.maxFaults) :
    (clearFault cfg c i).table =
      Function.update c.table i { c.table i with occurrence_count := 0 } := by
  rw [clearFault, if_neg (by omega)]
  dsimp only [dispatchPerFault]
  split_ifs <;> rfl

lemma clearFault_global (cfg : Cfg) (c : Collector) (i : Nat) (hi : i < cfg.maxFaults) :
    (clearFault cfg c i).global_hsm =
      if activeFaultCount cfg (Function.update c.active i false) = 0 then
        c.global_hsm.dispatch evtAllCleared
      else c.global_hsm := by
  rw [clearFault, if_neg (by omega)]
  dsimp only [dispatchPerFault]
  split_ifs <;> rfl

/-- Dispatching `AllCleared` twice is the same as once: from Active it
moves to Idle and zeroes the counters, and from Idle (or any other state)
it is ignored. -/
lemma allCleared_twice (g : GlobalHsm) :
    (g.dispatch evtAllCleared).dispatch evtAllCleared = g.dispatch evtAllCleared := by
  obtain ⟨st, ctx⟩ := g
  cases st <;>
    simp [GlobalHsm.dispatch, evtAllCleared, evtFaultReported, evtCriticalDetected,
      evtShutdownReq, evtDegradeRecovered]

/-- `ClearFault` on an index whose bit is already clear and whose counter
is already zero leaves the bitmap and the table unchanged, and dispatches
`AllCleared` exactly when no fault is active. -/
lemma clearFault_already_clear (cfg : Cfg) (b : Collector) (i : Nat)
    (hi : i < cfg.maxFaults) (hA : b.active i = false)
    (hT : (b.table i).occurrence_count = 0) :
    (clearFault cfg b i).active = b.active ∧
    (clearFault cfg b i).table = b.table ∧
    (clearFault cfg b i).global_hsm =
      (if activeFaultCount cfg b.active = 0 then
        b.global_hsm.dispatch evtAllCleared
      else b.global_hsm) := by
  have hAup : Function.update b.active i false = b.active := by
    rw [← hA, Function.update_eq_self]
  have hTup : Function.update b.table i { b.table i with occurrence_count := 0 } = b.table := by
    have hfix : ({ b.table i with occurrence_count := 0 } : FaultTableEntry) = b.table i := by
      rw [← hT]
    rw [hfix, Function.update_eq_self]
  refine ⟨?_, ?_, ?_⟩
  · rw [clearFault_active cfg b i hi, hAup]
  · rw [clearFault_table cfg b i hi, hTup]
  · rw [clearFault_global cfg b i hi, hAup]

/-- C6 (amended).  `ClearFault(i)` twice equals `ClearFault(i)` once on the
active bitmap, on every occurrence counter, and on the global HSM; the
bound per-fault HSM is the one component on which the two differ (the
second call's `ClearFault` event moves it from Cleared on to Dormant). -/
theorem clearFault_idempotent_observables (cfg : Cfg) (c : Collector) (i : Nat) :
    (clearFault cfg (clearFault cfg c i) i).active = (clearFault cfg c i).active ∧
    (∀ j, ((clearFault cfg (clearFault cfg c i) i).table j).occurrence_count =
      ((clearFault cfg c i).table j).occurrence_count) ∧
    (clearFault cfg (clearFault cfg c i) i).global_hsm = (clearFault cfg c i).global_hsm := by
  by_cases hi : i ≥ cfg.maxFaults
  · have h1 : clearFault cfg c i = c := by rw [clearFault, if_pos hi]
    rw [h1, h1]
    exact ⟨rfl, fun j => rfl, rfl⟩
  · have hi' : i < cfg.maxFaults := by omega
    have hAa : (clearFault cfg c i).active i = false := by
      rw [clearFault_active cfg c i hi']; simp [Function.update_apply]
    have hTa : ((clearFault cfg c i).table i).occurrence_count = 0 := by
      rw [clearFault_table cfg c i hi']; simp [Function.update_apply]
    obtain ⟨h1, h2, h3⟩ := clearFault_already_clear cfg (clearFault cfg c i) i hi' hAa hTa
    refine ⟨h1, fun j => by rw [h2], ?_⟩
    rw [clearFault_active cfg c i hi'] at h3
    have hga := clearFault_global cfg c i hi'
    by_cases hcnt : activeFaultCount cfg (Function.update c.active i false) = 0
    · rw [if_pos hcnt] at h3 hga
      rw [h3, hga, allCleared_twice]
    · rw [if_neg hcnt] at h3 hga
      rw [h3]

/-- C6 counterexample.  On `boundReportedState` (a per-fault HSM bound to
fault 0, which a Medium report has driven to Detected), one `ClearFault(0)`
leaves the bound HSM in Cleared but a second `ClearFault(0)` drives it on
to Dormant: the two final states differ on the bound per-fault HSM, so
`ClearFault(i)` twice is not equivalent to once. -/
theorem claim6_counterexample :
    hsmStateOf (clearFault testCfg boundReportedState 0) 0 = some .Cleared ∧
    hsmStateOf (clearFault testCfg (clearFault testCfg boundReportedState 0) 0) 0 =
      some .Dormant ∧
    hsmStateOf (clearFault testCfg (clearFault testCfg boundReportedState 0) 0) 0 ≠
      hsmStateOf (clearFault testCfg boundReportedState 0) 0 := by
  refine ⟨by decide, by decide, by decide⟩

/-! ### Round-trip of a report through processing (C3) -/

lemma getD_set_self {α : Type _} (l : List α) (n : Nat) (x d : α) (h : n < l.length) :
    (l.set n x).getD n d = x := by
  induction l generalizing n with
  | nil => simp at h
  | cons a t ih =>
    cases n with
    | zero => rfl
    | succ m => exact ih m (by simpa using h)

lemma handleEscalation_table (cfg : Cfg) (c : Collector) (e : FaultEntry) :
    (handleEscalation cfg c e).table = c.table := by
  unfold handleEscalation
  dsimp only
  split
  · rfl
  · split <;> rfl

lemma applyAction_table (cfg : Cfg) (c3 : Collector) (e : FaultEntry) (a : HookAction) :
    ((applyAction cfg c3 e a).1).table = c3.table := by
  cases a with
  | kHandled => unfold applyAction; dsimp only; split_ifs <;> rfl
  | kEscalate => exact handleEscalation_table cfg c3 e
  | kDefer => rfl
  | kShutdown => rfl

/-- `ProcessEntry` touches a descriptor's occurrence counter only: the
`registered` flag and `fault_code` of every descriptor are preserved. -/
lemma processEntry_table (cfg : Cfg) (c : Collector) (e : FaultEntry) (i : Nat) :
    ((processEntry cfg c e).1.table i).registered = (c.table i).registered ∧
    ((processEntry cfg c e).1.table i).fault_code = (c.table i).fault_code := by
  unfold processEntry
  split
  · exact ⟨rfl, rfl⟩
  · dsimp only
    rw [applyAction_table]
    have hc3 : ∀ c3 : Collector,
        c3.table = Function.update c.table e.fault_index
          { c.table e.fault_index with
            occurrence_count := (c.table e.fault_index).occurrence_count + 1 } →
        (c3.table i).registered = (c.table i).registered ∧
        (c3.table i).fault_code = (c.table i).fault_code := by
      intro c3 h
      rw [h]
      by_cases hie : i = e.fault_index
      · subst hie; simp [Function.update_apply]
      · simp [Function.update_apply, hie]
    apply hc3
    split_ifs <;> rfl

lemma drainLoop_table (cfg : Cfg) :
    ∀ (fuel : Nat) (c : Collector) (i : Nat),
      (((drainLoop cfg fuel c).2.1).table i).registered = (c.table i).registered ∧
      (((drainLoop cfg fuel c).2.1).table i).fault_code = (c.table i).fault_code := by
  intro fuel
  induction fuel with
  | zero => intro c i; exact ⟨rfl, rfl⟩
  | succ n ih =>
    intro c i
    unfold drainLoop
    split
    · exact ⟨rfl, rfl⟩
    · rename_i x entry lvl qs heq
      dsimp only
      obtain ⟨h1, h2⟩ := ih (processEntry cfg { c with queues := qs } entry).1 i
      obtain ⟨h3, h4⟩ := processEntry_table cfg { c with queues := qs } entry i
      exact ⟨h1.trans h3, h2.trans h4⟩

/-- After registration, a descriptor's `registered` flag and `fault_code`
survive every public operation. -/
lemma step_table_code (cfg : Cfg) (c : Collector) (op : Op) (i : Nat)
    (h : (c.table i).registered = true) :
    ((step cfg c op).table i).registered = true ∧
    ((step cfg c op).table i).fault_code = (c.table i).fault_code := by
  cases op with
  | register j code a t =>
    unfold step registerFault
    dsimp only
    split_ifs with h1 h2
    · exact ⟨h, rfl⟩
    · exact ⟨h, rfl⟩
    · dsimp only
      by_cases hij : i = j
      · subst hij; exact absurd h (by simpa using h2)
      · simp [Function.update_apply, hij, h]
  | regHook j f =>
    unfold step registerHook
    dsimp only
    split_ifs <;>
      first
      | exact ⟨h, rfl⟩
      | (by_cases hij : i = j
         · subst hij; simp_all [Function.update_apply]
         · simp [Function.update_apply, hij, h])
  | setDefault f => exact ⟨h, rfl⟩
  | setOverflowCb b => exact ⟨h, rfl⟩
  | setShutdownCb b => exact ⟨h, rfl⟩
  | setBusCb b => exact ⟨h, rfl⟩

  | bindHsm j t =>
    unfold step bindFaultHsm
    dsimp only
    split_ifs <;> exact ⟨h, rfl⟩
  | report j d p =>
    unfold step reportFault
    dsimp only
    split_ifs <;>
      first
      | exact ⟨h, rfl⟩
      | (split <;> exact ⟨h, rfl⟩)
  | process fuel =>
    unfold step processFaults
    dsimp only
    split_ifs
    · exact ⟨h, rfl⟩
    · obtain ⟨h1, h2⟩ := drainLoop_table cfg fuel c i
      exact ⟨h1.trans h, h2⟩
  | clear j =>
    unfold step
    dsimp only
    by_cases hj : j ≥ cfg.maxFaults
    · rw [clearFault, if_pos hj]; exact ⟨h, rfl⟩
    · rw [clearFault_table cfg c j (by omega)]
      by_cases hij : i = j
      · subst hij; simp [Function.update_apply, h]
      · simp [Function.update_apply, hij, h]
  | clearAll =>
    unfold step clearAllFaults
    dsimp only
    split_ifs <;> exact ⟨h, rfl⟩
  | resetStats => exact ⟨h, rfl⟩

lemma foldl_table_code (cfg : Cfg) :
    ∀ (ops : List Op) (c : Collector) (i : Nat), (c.table i).registered = true →
      ((ops.foldl (step cfg) c).table i).registered = true ∧
      ((ops.foldl (step cfg) c).table i).fault_code = (c.table i).fault_code := by
  intro ops
  induction ops with
  | nil => intro c i h; exact ⟨h, rfl⟩
  | cons op rest ih =>
    intro c i h
    obtain ⟨h1, h2⟩ := step_table_code cfg c op i h
    obtain ⟨h3, h4⟩ := ih (step cfg c op) i h1
    exact ⟨h3, h4.trans h2⟩

/-- C3.  A successful `ReportFault(i, d, p)` appends the entry
`reportedEntry` (carrying exactly `i`, `d`, `p`) at the back of one
in-range level of the queue set, and whenever that entry is processed —
after any further sequence of public operations — the `FaultEvent` handed
to the hook and bus notifier carries the same `fault_index` `i`, the same
`detail` `d`, the same `priority` `p`, and the `fault_code` that
`RegisterFault` stored in descriptor `i` (which no operation ever
changes). -/
theorem report_roundTrip (cfg : Cfg) (c : Collector) (i d : Nat) (p : FaultPriority)
    (hlen : c.queues.length = cfg.queueLevels)
    (hok : (reportFault cfg c i d p).1 = FccuError.kOk) (ops : List Op) :
    (∃ level, level < cfg.queueLevels ∧
      (reportFault cfg c i d p).2.1.queues.getD level [] =
        c.queues.getD level [] ++ [reportedEntry c i d p]) ∧
    ((ops.foldl (step cfg) (reportFault cfg c i d p).2.1).table i).fault_code =
      (c.table i).fault_code ∧
    (eventOf (ops.foldl (step cfg) (reportFault cfg c i d p).2.1)
      (reportedEntry c i d p)).fault_index = i ∧
    (eventOf (ops.foldl (step cfg) (reportFault cfg c i d p).2.1)
      (reportedEntry c i d p)).detail = d ∧
    (eventOf (ops.foldl (step cfg) (reportFault cfg c i d p).2.1)
      (reportedEntry c i d p)).priority = p ∧
    (eventOf (ops.foldl (step cfg) (reportFault cfg c i d p).2.1)
      (reportedEntry c i d p)).fault_code = (c.table i).fault_code ∧
    Effect.hookCall
        (eventOf (ops.foldl (step cfg) (reportFault cfg c i d p).2.1) (reportedEntry c i d p))
        (hookActionOf (ops.foldl (step cfg) (reportFault cfg c i d p).2.1)
          (reportedEntry c i d p)) ∈
      (processEntry cfg (ops.foldl (step cfg) (reportFault cfg c i d p).2.1)
        (reportedEntry c i d p)).2 := by
  obtain ⟨hidx, hreg, hglobal, htable, qs, hpush, hqueues⟩ := reportFault_ok_spec cfg c i d p hok
  obtain ⟨hlvl, hset⟩ := qsPushWithAdmission_some _ _ _ _ _ _ hpush
  have hR : ((reportFault cfg c i d p).2.1.table i).registered = true := by
    rw [htable]; exact hreg
  obtain ⟨hR', hC⟩ := foldl_table_code cfg ops (reportFault cfg c i d p).2.1 i hR
  rw [htable] at hC
  refine ⟨⟨(if p.toNat ≥ cfg.queueLevels then cfg.queueLevels - 1 else p.toNat), hlvl, ?_⟩,
    hC, rfl, rfl, rfl, ?_, ?_⟩
  · rw [hqueues, hset, getD_set_self _ _ _ _ (by omega)]
  · show ((ops.foldl (step cfg) (reportFault cfg c i d p).2.1).table
        (reportedEntry c i d p).fault_index).fault_code = (c.table i).fault_code
    exact hC
  · unfold processEntry
    rw [if_neg (show ¬ (reportedEntry c i d p).fault_index ≥ cfg.maxFaults from by
      simp only [reportedEntry]; omega)]
    dsimp only
    simp [List.mem_append]

/-- Witness for C3 at the test configuration: after registering index 0
with code 0x1001, a Medium report of detail 5 round-trips — the entry is
appended to one level and the synthesized event carries index 0, detail 5,
Medium priority and code 0x1001. -/
theorem report_roundTrip_witness :
    registeredState.queues.length = testCfg.queueLevels ∧
    (reportFault testCfg registeredState 0 5 .kMedium).1 = FccuError.kOk ∧
    ((∃ level, level < testCfg.queueLevels ∧
      (reportFault testCfg registeredState 0 5 .kMedium).2.1.queues.getD level [] =
        registeredState.queues.getD level [] ++ [reportedEntry registeredState 0 5 .kMedium]) ∧
    (([].foldl (step testCfg)
        (reportFault testCfg registeredState 0 5 .kMedium).2.1).table 0).fault_code =
      (registeredState.table 0).fault_code ∧
    (eventOf ([].foldl (step testCfg) (reportFault testCfg registeredState 0 5 .kMedium).2.1)
      (reportedEntry registeredState 0 5 .kMedium)).fault_index = 0 ∧
    (eventOf ([].foldl (step testCfg) (reportFault testCfg registeredState 0 5 .kMedium).2.1)
      (reportedEntry registeredState 0 5 .kMedium)).detail = 5 ∧
    (eventOf ([].foldl (step testCfg) (reportFault testCfg registeredState 0 5 .kMedium).2.1)
      (reportedEntry registeredState 0 5 .kMedium)).priority = .kMedium ∧
    (eventOf ([].foldl (step testCfg) (reportFault testCfg registeredState 0 5 .kMedium).2.1)
      (reportedEntry registeredState 0 5 .kMedium)).fault_code =
      (registeredState.table 0).fault_code ∧
    Effect.hookCall
        (eventOf ([].foldl (step testCfg) (reportFault testCfg registeredState 0 5 .kMedium).2.1)
          (reportedEntry registeredState 0 5 .kMedium))
        (hookActionOf
          ([].foldl (step testCfg) (reportFault testCfg registeredState 0 5 .kMedium).2.1)
          (reportedEntry registeredState 0 5 .kMedium)) ∈
      (processEntry testCfg
        ([].foldl (step testCfg) (reportFault testCfg registeredState 0 5 .kMedium).2.1)
        (reportedEntry registeredState 0 5 .kMedium)).2) :=
  ⟨by decide, by decide,
   report_roundTrip testCfg registeredState 0 5 .kMedium (by decide) (by decide) []⟩

end Fccu
